import Mathlib

/-!
Verification of the `0pi` event-to-entity indexing mapper.

The functional core is the subgraph mapping handler `handleApiCallProved`
(file `src/api-calls-registry.ts`, entity `ApiCallProved`), which persists
one store entity per decoded `ApiCallProved` chain event, keyed by
`event.transaction.hash.concatI32(event.logIndex.toI32())`.  A second,
structurally similar handler (`src/subgraph/src/mapping.ts`, entity
`ApiCall`) uses the string key
`event.transaction.hash.toHex() + ":" + event.logIndex.toString()`.

Machine integers: graph-ts `BigInt.toI32` delegates to `ByteArray.toI32`,
which throws "overflow converting ... to i32" when any byte past the
third is not sign padding — for a non-negative log index, any value of
`2 ^ 32` or above aborts the handler.  Below `2 ^ 32` the conversion is
byte-exact, and `Bytes.concatI32` appends the four bytes of the 32-bit
value in little-endian order (graph-ts `ByteArray.fromI32` stores byte 0
as the least significant byte).  The fallible conversion is modelled by
`toI32Bytes` (an `Option`); `i32Bytes` gives the four bytes on the
non-overflow domain.  Byte sequences (`Bytes`, addresses) are modelled as
`List Nat` with each element intended below 256.

The ambient graph-node store is modelled as an association list keyed by
the entity id, with `save` as an upsert (replace the entry if the key is
present, append otherwise), matching graph-node `store.set` semantics.
-/

/-- A decoded `ApiCallProved` chain event (graph-ts `ApiCallProvedEvent`):
the four event parameters `callId`, `requestHash`, `responseHash`,
`emitter`, plus the transaction hash, log index and block metadata the
handler reads. -/
structure ChainEvent where
  transactionHash : List Nat
  logIndex : Nat
  blockNumber : Nat
  blockTimestamp : Nat
  callId : String
  requestHash : String
  responseHash : String
  emitter : List Nat
deriving DecidableEq, Repr

/-- The persisted `ApiCallProved` entity (generated schema used by
`src/api-calls-registry.ts`). -/
structure ApiCallProved where
  callId : String
  requestHash : String
  responseHash : String
  emitter : List Nat
  blockNumber : Nat
  blockTimestamp : Nat
  transactionHash : List Nat
deriving DecidableEq, Repr

/-- The four bytes appended by graph-ts `Bytes.concatI32 (x.toI32())` for
a log index on which `toI32` does not trap (below `2 ^ 32`): the value's
little-endian bytes (`ByteArray.fromI32` stores the least significant
byte first).  The overflow trap of `toI32` itself is modelled by
`toI32Bytes`. -/
def i32Bytes (n : Nat) : List Nat :=
  [n % 256, n / 256 % 256, n / 65536 % 256, n / 16777216 % 256]

/-- Graph-ts `BigInt.toI32` as a fallible conversion: `ByteArray.toI32`
throws "overflow converting ... to i32" when a byte past the third is not
sign padding, which for a non-negative log index means any value of
`2 ^ 32` or above; below `2 ^ 32` it yields the value's four little-endian
bytes. -/
def toI32Bytes (n : Nat) : Option (List Nat) :=
  if n < 4294967296 then some (i32Bytes n) else none

/-- Entity id of `src/api-calls-registry.ts` line 6, on the domain where
the conversion succeeds:
`event.transaction.hash.concatI32(event.logIndex.toI32())`. -/
def assignId (e : ChainEvent) : List Nat :=
  e.transactionHash ++ i32Bytes e.logIndex

/-- The id computation of `src/api-calls-registry.ts` line 6 with the
overflow trap made explicit: `none` when `event.logIndex.toI32()` throws
(the handler aborts and no id is assigned), the concatenated id
otherwise. -/
def assignIdChecked (e : ChainEvent) : Option (List Nat) :=
  Option.map (fun bs => e.transactionHash ++ bs) (toI32Bytes e.logIndex)

/-- The entity value built by `src/api-calls-registry.ts` lines 5-15:
every field is copied verbatim from the event. -/
def newEntity (e : ChainEvent) : ApiCallProved :=
  { callId := e.callId
    requestHash := e.requestHash
    responseHash := e.responseHash
    emitter := e.emitter
    blockNumber := e.blockNumber
    blockTimestamp := e.blockTimestamp
    transactionHash := e.transactionHash }

/-- The graph-node store for `ApiCallProved` entities: an association list
keyed by entity id. -/
def Store : Type := List (List Nat × ApiCallProved)

/-- Point lookup by id (`NotFound` is `none`). -/
def Store.get : Store → List Nat → Option ApiCallProved
  | [], _ => none
  | p :: rest, k => if p.1 = k then some p.2 else Store.get rest k

/-- `entity.save()`: replace the entry at the key if present, append a new
entry otherwise (graph-node `store.set` upsert semantics). -/
def Store.upsert : Store → List Nat → ApiCallProved → Store
  | [], k, v => [(k, v)]
  | p :: rest, k, v => if p.1 = k then (k, v) :: rest else p :: Store.upsert rest k v

/-- Number of persisted entities (matchstick `assert.entityCount`). -/
def Store.count (s : Store) : Nat := List.length s

/-- Matchstick `clearStore()` (test teardown): full store reset. -/
def clearStore : Store := []

/-- The mapping handler itself as a store transformation
(`src/api-calls-registry.ts` lines 4-18): build the entity from the event
and save it under the derived id. -/
def handleApiCallProved (e : ChainEvent) (s : Store) : Store :=
  Store.upsert s (assignId e) (newEntity e)

/-- The pipeline `process` of spec section 4.4: run the handler and return
the assigned entity id. -/
def process (e : ChainEvent) (s : Store) : List Nat × Store :=
  (assignId e, handleApiCallProved e s)

/-- Error taxonomy of spec section 7: `MalformedEvent` from the Event
Source Adapter, `StoreUnavailable` from the Upsert Store. -/
inductive PipelineError where
  | malformedEvent
  | storeUnavailable
deriving DecidableEq, Repr

/-- Modelled from the spec: the raw provider-specific event payload fed to
the Event Source Adapter (spec section 4.1).  The adapter itself is not
under `src/` (graph-node decodes events before the mapping runs), so the
payload is modelled from the spec: the required fields (transaction hash,
log index, emitter) may be absent or ill-shaped; the remaining fields are
carried through. -/
structure RawPayload where
  transactionHash : Option (List Nat)
  logIndex : Option Int
  emitter : Option (List Nat)
  callId : String
  requestHash : String
  responseHash : String
  blockNumber : Nat
  blockTimestamp : Nat
deriving DecidableEq, Repr

/-- A well-shaped transaction hash: 32 bytes, each below 256. -/
def validHash (h : List Nat) : Bool :=
  h.length = 32 && h.all (fun b => b < 256)

/-- A well-shaped emitter address: 20 bytes, each below 256. -/
def validAddr (a : List Nat) : Bool :=
  a.length = 20 && a.all (fun b => b < 256)

/-- Modelled from the spec: the Event Source Adapter (spec section 4.1),
which is not under `src/`.  It produces a `ChainEvent` with all fields
populated, and fails with `MalformedEvent` when a required field (hash,
index, emitter) is absent or of the wrong shape. -/
def decodeEvent (p : RawPayload) : Except PipelineError ChainEvent :=
  match p.transactionHash, p.logIndex, p.emitter with
  | some h, some i, some a =>
      if validHash h && decide (0 ≤ i) && validAddr a then
        Except.ok
          { transactionHash := h
            logIndex := i.toNat
            blockNumber := p.blockNumber
            blockTimestamp := p.blockTimestamp
            callId := p.callId
            requestHash := p.requestHash
            responseHash := p.responseHash
            emitter := a }
      else Except.error PipelineError.malformedEvent
  | _, _, _ => Except.error PipelineError.malformedEvent

/-- A required field of the raw payload is absent or of the wrong shape
(the failure precondition of spec section 4.1). -/
def RawMalformed (p : RawPayload) : Prop :=
  p.transactionHash = none ∨ p.logIndex = none ∨ p.emitter = none ∨
  (∃ h, p.transactionHash = some h ∧ validHash h = false) ∨
  (∃ i, p.logIndex = some i ∧ i < 0) ∨
  (∃ a, p.emitter = some a ∧ validAddr a = false)

/-- The pipeline on raw payloads (spec section 4.4): decode via the Event
Source Adapter, then run the handler; on `MalformedEvent` the event is
dropped and the store is untouched. -/
def processRaw (p : RawPayload) (s : Store) :
    Except PipelineError (List Nat) × Store :=
  match decodeEvent p with
  | Except.error err => (Except.error err, s)
  | Except.ok e => (Except.ok (assignId e), handleApiCallProved e s)

/-- Modelled from the spec: the Upsert Store's fallible write (spec
sections 4.3 and 7).  The persistence medium is graph-node's, not under
`src/`; `avail` says whether it can be reached.  On failure the write
returns `StoreUnavailable` and the store is unchanged (all-or-nothing
commit). -/
def Store.upsertF (avail : Bool) (s : Store) (k : List Nat)
    (v : ApiCallProved) : Option PipelineError × Store :=
  if avail then (none, Store.upsert s k v) else (some PipelineError.storeUnavailable, s)

/-- The pipeline `process` over the fallible store: returns the assigned
id together with the store error, if any. -/
def processF (avail : Bool) (e : ChainEvent) (s : Store) :
    Option PipelineError × (List Nat × Store) :=
  ((Store.upsertF avail s (assignId e) (newEntity e)).1,
    (assignId e, (Store.upsertF avail s (assignId e) (newEntity e)).2))

/-! ### The second handler (`src/subgraph/src/mapping.ts`) -/

/-- The persisted `ApiCall` entity of `src/subgraph/src/mapping.ts`. -/
structure ApiCall where
  callId : String
  requestHash : String
  responseHash : String
  emitter : List Nat
  txHash : List Nat
  blockNumber : Nat
  timestamp : Nat
deriving DecidableEq, Repr

/-- One lowercase hexadecimal digit character. -/
def hexDigit : Nat → Char
  | 0 => '0' | 1 => '1' | 2 => '2' | 3 => '3'
  | 4 => '4' | 5 => '5' | 6 => '6' | 7 => '7'
  | 8 => '8' | 9 => '9' | 10 => 'a' | 11 => 'b'
  | 12 => 'c' | 13 => 'd' | 14 => 'e' | _ => 'f'

/-- Hex digits of a byte list, two lowercase digits per byte. -/
def hexBody : List Nat → List Char
  | [] => []
  | b :: bs => hexDigit (b / 16) :: hexDigit (b % 16) :: hexBody bs

/-- Graph-ts `Bytes.toHex()`: the string `0x` followed by two lowercase
hex digits per byte. -/
def bytesToHex (bs : List Nat) : String :=
  String.mk ('0' :: 'x' :: hexBody bs)

/-- Entity id of `src/subgraph/src/mapping.ts` line 5:
`event.transaction.hash.toHex() + ":" + event.logIndex.toString()`. -/
def assignIdStr (e : ChainEvent) : String :=
  bytesToHex e.transactionHash ++ ":" ++ toString e.logIndex

/-- The entity value built by `src/subgraph/src/mapping.ts` lines 6-13:
the four event parameters plus transaction hash and block metadata. -/
def newApiCall (e : ChainEvent) : ApiCall :=
  { callId := e.callId
    requestHash := e.requestHash
    responseHash := e.responseHash
    emitter := e.emitter
    txHash := e.transactionHash
    blockNumber := e.blockNumber
    timestamp := e.blockTimestamp }

/-! ### Concrete sample inputs (spec section 8 example scenario) -/

/-- The example event of spec section 8: 32-byte transaction hash, log
index 0-adjacent, concrete parameter strings. -/
def sampleEvent : ChainEvent :=
  { transactionHash := List.replicate 32 170
    logIndex := 1
    blockNumber := 100
    blockTimestamp := 1700000000
    callId := "call-1"
    requestHash := "req-1"
    responseHash := "res-1"
    emitter := List.replicate 20 1 }

/-- Same transaction hash and log index as `sampleEvent`, every other
field different. -/
def sampleEventVariant : ChainEvent :=
  { transactionHash := List.replicate 32 170
    logIndex := 1
    blockNumber := 101
    blockTimestamp := 1700000007
    callId := "call-2"
    requestHash := "req-2"
    responseHash := "res-2"
    emitter := List.replicate 20 2 }

/-- Same transaction hash as `sampleEvent`, log index `2 ^ 32`: the
`toI32` conversion overflows on it, so the handler aborts and assigns no
id. -/
def overflowEvent : ChainEvent := { sampleEvent with logIndex := 4294967296 }

/-- Same transaction hash as `sampleEvent`, log index 2. -/
def collideEventC : ChainEvent := { sampleEvent with logIndex := 2 }

/-- A raw payload with the required transaction hash absent. -/
def badPayload : RawPayload :=
  { transactionHash := none
    logIndex := some 1
    emitter := some (List.replicate 20 1)
    callId := "call-1"
    requestHash := "req-1"
    responseHash := "res-1"
    blockNumber := 100
    blockTimestamp := 1700000000 }

/-- A raw payload with every required field present and well-shaped. -/
def goodPayload : RawPayload :=
  { transactionHash := some (List.replicate 32 170)
    logIndex := some 1
    emitter := some (List.replicate 20 1)
    callId := "call-1"
    requestHash := "req-1"
    responseHash := "res-1"
    blockNumber := 100
    blockTimestamp := 1700000000 }

/-! ### Store lemmas -/

theorem Store.get_upsert_self (s : Store) (k : List Nat) (v : ApiCallProved) :
    Store.get (Store.upsert s k v) k = some v := by
  induction s with
  | nil => simp [Store.upsert, Store.get]
  | cons p rest ih =>
      by_cases h : p.1 = k
      · simp [Store.upsert, Store.get, h]
      · simp [Store.upsert, Store.get, h, ih]

theorem Store.get_upsert_ne (s : Store) (k k' : List Nat) (v : ApiCallProved)
    (h : k' ≠ k) : Store.get (Store.upsert s k v) k' = Store.get s k' := by
  have hk : k ≠ k' := Ne.symm h
  induction s with
  | nil => simp [Store.upsert, Store.get, hk]
  | cons p rest ih =>
      by_cases hp : p.1 = k
      · simp only [Store.upsert, if_pos hp, Store.get, if_neg hk, hp]
      · simp only [Store.upsert, if_neg hp, Store.get, ih]

theorem Store.upsert_eq_of_get (s : Store) (k : List Nat) (v : ApiCallProved)
    (h : Store.get s k = some v) : Store.upsert s k v = s := by
  induction s with
  | nil => simp [Store.get] at h
  | cons p rest ih =>
      by_cases hp : p.1 = k
      · simp only [Store.get, if_pos hp, Option.some.injEq] at h
        simp only [Store.upsert, if_pos hp, ← hp, ← h]
        simp
      · simp only [Store.get, if_neg hp] at h
        simp only [Store.upsert, if_neg hp, ih h]

theorem Store.count_upsert_of_get_none (s : Store) (k : List Nat) (v : ApiCallProved)
    (h : Store.get s k = none) :
    Store.count (Store.upsert s k v) = Store.count s + 1 := by
  induction s with
  | nil => rfl
  | cons p rest ih =>
      by_cases hp : p.1 = k
      · simp only [Store.get, if_pos hp] at h
        cases h
      · simp only [Store.get, if_neg hp] at h
        simp only [Store.upsert, if_neg hp, Store.count, List.length_cons] at ih ⊢
        rw [ih h]

theorem Store.get_upsert_isSome (s : Store) (k k' : List Nat) (v : ApiCallProved)
    (w : ApiCallProved) (h : Store.get s k' = some w) :
    ∃ w2, Store.get (Store.upsert s k v) k' = some w2 := by
  by_cases hk : k' = k
  · subst hk
    exact ⟨v, Store.get_upsert_self s k' v⟩
  · rw [Store.get_upsert_ne s k k' v hk]
    exact ⟨w, h⟩

/-- 32-bit little-endian encoding is injective below `2 ^ 32`. -/
theorem i32Bytes_inj (m n : Nat) (hm : m < 4294967296) (hn : n < 4294967296)
    (h : i32Bytes m = i32Bytes n) : m = n := by
  simp only [i32Bytes, List.cons.injEq, and_true] at h
  omega

theorem i32Bytes_length (n : Nat) : (i32Bytes n).length = 4 := rfl

/-! ### Hex-rendering lemmas -/

theorem hexDigit_ne_colon (n : Nat) : hexDigit n ≠ ':' := by
  unfold hexDigit
  split <;> decide

theorem colon_not_mem_hexBody (bs : List Nat) : ':' ∉ hexBody bs := by
  induction bs with
  | nil => simp [hexBody]
  | cons b rest ih =>
      intro hmem
      rcases List.mem_cons.mp hmem with h | hmem2
      · exact hexDigit_ne_colon _ h.symm
      · rcases List.mem_cons.mp hmem2 with h | h3
        · exact hexDigit_ne_colon _ h.symm
        · exact ih h3

theorem string_data_append (a b : String) : (a ++ b).data = a.data ++ b.data := rfl

/-! ### Claim theorems -/

/-- C1: for every well-formed ChainEvent `e` whose id is not yet in the
store, invoking the pipeline's `process` (the `handleApiCallProved`
handler) twice with logically identical input yields the same entity id
both times, and the entity count after the second invocation equals the
count after the first, which is exactly one more than the initial count. -/
theorem process_idempotent (e : ChainEvent) (s : Store)
    (h : Store.get s (assignId e) = none) :
    (process e s).1 = (process e (process e s).2).1 ∧
    Store.count (process e (process e s).2).2 = Store.count (process e s).2 ∧
    Store.count (process e s).2 = Store.count s + 1 := by
  refine ⟨rfl, ?_, ?_⟩
  · show Store.count (handleApiCallProved e (handleApiCallProved e s)) =
      Store.count (handleApiCallProved e s)
    unfold handleApiCallProved
    rw [Store.upsert_eq_of_get _ _ _ (Store.get_upsert_self s (assignId e) (newEntity e))]
  · exact Store.count_upsert_of_get_none s (assignId e) (newEntity e) h

theorem process_idempotent_witness :
    (process sampleEvent clearStore).1 =
      (process sampleEvent (process sampleEvent clearStore).2).1 ∧
    Store.count (process sampleEvent (process sampleEvent clearStore).2).2 =
      Store.count (process sampleEvent clearStore).2 ∧
    Store.count (process sampleEvent clearStore).2 = Store.count clearStore + 1 :=
  process_idempotent sampleEvent clearStore rfl

/-- C2: two ChainEvents agreeing on transactionHash and logIndex are
assigned the same entity id, whatever their other fields. -/
theorem assignId_deterministic (e1 e2 : ChainEvent)
    (htx : e1.transactionHash = e2.transactionHash)
    (hidx : e1.logIndex = e2.logIndex) : assignId e1 = assignId e2 := by
  simp [assignId, htx, hidx]

theorem assignId_deterministic_witness :
    assignId sampleEvent = assignId sampleEventVariant :=
  assignId_deterministic sampleEvent sampleEventVariant rfl rfl

theorem assignIdChecked_eq_some (e : ChainEvent) (id : List Nat)
    (h : assignIdChecked e = some id) :
    e.logIndex < 4294967296 ∧ id = assignId e := by
  unfold assignIdChecked toI32Bytes at h
  by_cases hlt : e.logIndex < 4294967296
  · rw [if_pos hlt] at h
    exact ⟨hlt, (Option.some.inj h).symm⟩
  · rw [if_neg hlt] at h
    cases h

theorem assignId_inj_of_lt (e1 e2 : ChainEvent)
    (h1 : e1.logIndex < 4294967296) (h2 : e2.logIndex < 4294967296)
    (hne : e1.transactionHash ≠ e2.transactionHash ∨ e1.logIndex ≠ e2.logIndex) :
    assignId e1 ≠ assignId e2 := by
  intro h
  have hlen : e1.transactionHash.length = e2.transactionHash.length := by
    have hl := congrArg List.length h
    simp only [assignId, List.length_append, i32Bytes, List.length_cons,
      List.length_nil] at hl
    omega
  have hparts := List.append_inj h hlen
  rcases hne with hne | hne
  · exact hne hparts.1
  · exact hne (i32Bytes_inj _ _ h1 h2 hparts.2)

/-- C3: wherever the code assigns an entity id at all (the log-index
conversion does not overflow, so the handler reaches the save), two
ChainEvents differing in transactionHash or in logIndex receive different
ids: the id assignment is injective on the (transactionHash, logIndex)
pair. -/
theorem assignId_injective_on_assigned (e1 e2 : ChainEvent) (id1 id2 : List Nat)
    (h1 : assignIdChecked e1 = some id1) (h2 : assignIdChecked e2 = some id2)
    (hne : e1.transactionHash ≠ e2.transactionHash ∨ e1.logIndex ≠ e2.logIndex) :
    id1 ≠ id2 := by
  obtain ⟨hlt1, hid1⟩ := assignIdChecked_eq_some e1 id1 h1
  obtain ⟨hlt2, hid2⟩ := assignIdChecked_eq_some e2 id2 h2
  subst hid1
  subst hid2
  exact assignId_inj_of_lt e1 e2 hlt1 hlt2 hne

theorem assignId_injective_on_assigned_witness :
    assignId sampleEvent ≠ assignId collideEventC :=
  assignId_injective_on_assigned sampleEvent collideEventC
    (assignId sampleEvent) (assignId collideEventC) (by decide) (by decide)
    (Or.inr (by decide))

/-- C4 counterexample: the id assignment is not total and has an error
branch: at log index `2 ^ 32` the conversion `event.logIndex.toI32()`
throws its overflow assertion, the handler aborts, and no entity id is
computed for this well-formed-per-spec event. -/
theorem assignId_not_total : assignIdChecked overflowEvent = none := by decide

/-- C4 (amended): for every ChainEvent whose log index is below `2 ^ 32`,
the computed entity id is the raw transaction-hash bytes concatenated with
the 4-byte fixed-width encoding of the log index (little-endian here, an
encoding equivalent to the big-endian one: fixed width 4 and injective on
the domain), of fixed length 36 for a 32-byte hash, used directly as the
entity key; the assignment succeeds exactly on these events and fails with
the overflow trap on a log index of `2 ^ 32` or above. -/
theorem assignId_concat_fixed_width_checked (e : ChainEvent) :
    (e.logIndex < 4294967296 →
      assignIdChecked e = some (e.transactionHash ++ i32Bytes e.logIndex) ∧
      (i32Bytes e.logIndex).length = 4 ∧
      (e.transactionHash.length = 32 →
        (e.transactionHash ++ i32Bytes e.logIndex).length = 36)) ∧
    (4294967296 ≤ e.logIndex → assignIdChecked e = none) ∧
    (∀ m n, m < 4294967296 → n < 4294967296 → i32Bytes m = i32Bytes n → m = n) := by
  refine ⟨fun hlt => ⟨?_, rfl, ?_⟩, fun hge => ?_, i32Bytes_inj⟩
  · simp [assignIdChecked, toI32Bytes, hlt]
  · intro h32
    simp [List.length_append, h32, i32Bytes]
  · have hn : ¬ e.logIndex < 4294967296 := by omega
    simp [assignIdChecked, toI32Bytes, hn]

theorem assignId_concat_fixed_width_checked_witness :
    assignIdChecked sampleEvent
      = some (sampleEvent.transactionHash ++ i32Bytes sampleEvent.logIndex) ∧
    (sampleEvent.transactionHash ++ i32Bytes sampleEvent.logIndex).length = 36 ∧
    assignIdChecked overflowEvent = none :=
  ⟨((assignId_concat_fixed_width_checked sampleEvent).1 (by decide)).1,
    ((assignId_concat_fixed_width_checked sampleEvent).1 (by decide)).2.2 (by decide),
    (assignId_concat_fixed_width_checked overflowEvent).2.1 (by decide)⟩

/-- C5: after `process e`, looking the store up at the assigned id returns
an entity whose callId, requestHash, responseHash and emitter equal the
event parameters, and whose blockNumber, blockTimestamp and
transactionHash equal the event's block and transaction data: every
ChainEvent field is copied verbatim. -/
theorem process_field_fidelity (e : ChainEvent) (s : Store) :
    Store.get (process e s).2 (assignId e) = some (newEntity e) ∧
    (newEntity e).callId = e.callId ∧
    (newEntity e).requestHash = e.requestHash ∧
    (newEntity e).responseHash = e.responseHash ∧
    (newEntity e).emitter = e.emitter ∧
    (newEntity e).blockNumber = e.blockNumber ∧
    (newEntity e).blockTimestamp = e.blockTimestamp ∧
    (newEntity e).transactionHash = e.transactionHash :=
  ⟨Store.get_upsert_self s (assignId e) (newEntity e), rfl, rfl, rfl, rfl, rfl, rfl, rfl⟩

/-- C7: if `process` fails (the store write returns `StoreUnavailable`),
the store is left unchanged: a subsequent lookup at the event's id still
returns `NotFound` when the id was absent, and every previously committed
entity is untouched; commit is all-or-nothing per event. -/
theorem process_atomic_on_failure (avail : Bool) (e : ChainEvent) (s : Store)
    (err : PipelineError) (h : (processF avail e s).1 = some err) :
    (processF avail e s).2.2 = s ∧
    (Store.get s (assignId e) = none →
      Store.get (processF avail e s).2.2 (assignId e) = none) ∧
    (∀ k w, Store.get s k = some w → Store.get (processF avail e s).2.2 k = some w) := by
  cases avail with
  | true => simp [processF, Store.upsertF] at h
  | false => exact ⟨rfl, fun hn => hn, fun k w hw => hw⟩

theorem process_atomic_on_failure_witness :
    (processF false sampleEvent clearStore).2.2 = clearStore ∧
    Store.get (processF false sampleEvent clearStore).2.2 (assignId sampleEvent) = none := by
  obtain ⟨h1, h2, h3⟩ := process_atomic_on_failure false sampleEvent clearStore
    PipelineError.storeUnavailable rfl
  exact ⟨h1, h2 rfl⟩

/-- C8: entity lifecycle.  A first `process` for an id creates the entity
(count grows by one and the entity is retrievable); replaying an event
whose identical entity is already stored leaves the store literally
unchanged (overwrite with identical field values is a no-op); no handler
call ever deletes an existing entity; only the full store reset
(`clearStore`) empties the store. -/
theorem entity_lifecycle (e : ChainEvent) (s : Store) :
    (Store.get s (assignId e) = none →
      Store.get (handleApiCallProved e s) (assignId e) = some (newEntity e) ∧
      Store.count (handleApiCallProved e s) = Store.count s + 1) ∧
    (Store.get s (assignId e) = some (newEntity e) → handleApiCallProved e s = s) ∧
    (∀ k w, Store.get s k = some w →
      ∃ w2, Store.get (handleApiCallProved e s) k = some w2) ∧
    (∀ k, Store.get clearStore k = none) :=
  ⟨fun hn => ⟨Store.get_upsert_self s (assignId e) (newEntity e),
      Store.count_upsert_of_get_none s (assignId e) (newEntity e) hn⟩,
    fun hsome => Store.upsert_eq_of_get s (assignId e) (newEntity e) hsome,
    fun k w hw => Store.get_upsert_isSome s (assignId e) k (newEntity e) w hw,
    fun _ => rfl⟩

theorem entity_lifecycle_witness :
    Store.get (handleApiCallProved sampleEvent clearStore) (assignId sampleEvent)
      = some (newEntity sampleEvent) ∧
    handleApiCallProved sampleEvent (handleApiCallProved sampleEvent clearStore)
      = handleApiCallProved sampleEvent clearStore := by
  refine ⟨((entity_lifecycle sampleEvent clearStore).1 rfl).1, ?_⟩
  exact (entity_lifecycle sampleEvent
    (handleApiCallProved sampleEvent clearStore)).2.1 (by decide)

/-- C10: frame property.  `handleApiCallProved e` modifies at most the
store entry at the id derived from `e`'s (transactionHash, logIndex);
every entity stored under any other key is unchanged. -/
theorem handler_frame (e : ChainEvent) (s : Store) (k : List Nat)
    (h : k ≠ assignId e) :
    Store.get (handleApiCallProved e s) k = Store.get s k :=
  Store.get_upsert_ne s (assignId e) k (newEntity e) h

theorem handler_frame_witness :
    Store.get (handleApiCallProved sampleEvent [([7], newEntity sampleEvent)]) [7]
      = Store.get [([7], newEntity sampleEvent)] [7] :=
  handler_frame sampleEvent [([7], newEntity sampleEvent)] [7] (by decide)

/-- C6: for every raw payload with a required field (transaction hash, log
index, emitter) absent or of the wrong shape, the Event Source Adapter
step fails with `MalformedEvent` surfaced to the caller and no entity is
persisted; for payloads with all required fields present and well-shaped
it succeeds and every ChainEvent field is populated from the payload. -/
theorem decode_required_fields (p : RawPayload) (s : Store) :
    (RawMalformed p →
      processRaw p s = (Except.error PipelineError.malformedEvent, s)) ∧
    (¬ RawMalformed p →
      ∃ e, processRaw p s = (Except.ok (assignId e), handleApiCallProved e s) ∧
        p.transactionHash = some e.transactionHash ∧
        p.logIndex = some (e.logIndex : Int) ∧
        p.emitter = some e.emitter ∧
        e.callId = p.callId ∧ e.requestHash = p.requestHash ∧
        e.responseHash = p.responseHash ∧
        e.blockNumber = p.blockNumber ∧ e.blockTimestamp = p.blockTimestamp) := by
  obtain ⟨tx, li, em, c, rq, rs, bn, bt⟩ := p
  constructor
  · intro hm
    have hdec : decodeEvent ⟨tx, li, em, c, rq, rs, bn, bt⟩
        = Except.error PipelineError.malformedEvent := by
      cases tx with
      | none => rfl
      | some h =>
      cases li with
      | none => rfl
      | some i =>
      cases em with
      | none => rfl
      | some a =>
      simp only [RawMalformed, Option.some.injEq, reduceCtorEq, false_or] at hm
      simp only [decodeEvent]
      have hc : (validHash h && decide (0 ≤ i) && validAddr a) = false := by
        rcases hm with ⟨h2, heq, hbad⟩ | ⟨i2, heq, hneg⟩ | ⟨a2, heq, hbad⟩
        · subst heq
          simp [hbad]
        · subst heq
          have hni : ¬ (0 ≤ i) := by omega
          simp [hni]
        · subst heq
          simp [hbad]
      simp [hc]
    simp [processRaw, hdec]
  · intro hm
    cases tx with
    | none => exact absurd (Or.inl rfl) hm
    | some h =>
    cases li with
    | none => exact absurd (Or.inr (Or.inl rfl)) hm
    | some i =>
    cases em with
    | none => exact absurd (Or.inr (Or.inr (Or.inl rfl))) hm
    | some a =>
    cases hvh : validHash h with
    | false =>
        exact absurd (Or.inr (Or.inr (Or.inr (Or.inl ⟨h, rfl, hvh⟩)))) hm
    | true =>
    cases hva : validAddr a with
    | false =>
        exact absurd (Or.inr (Or.inr (Or.inr (Or.inr (Or.inr ⟨a, rfl, hva⟩))))) hm
    | true =>
    have hi : 0 ≤ i := by
      by_contra hb
      exact hm (Or.inr (Or.inr (Or.inr (Or.inr (Or.inl ⟨i, rfl, by omega⟩)))))
    refine ⟨⟨h, i.toNat, bn, bt, c, rq, rs, a⟩, ?_, rfl, ?_, rfl, rfl, rfl, rfl, rfl, rfl⟩
    · simp [processRaw, decodeEvent, hvh, hva, hi]
    · simp [Int.toNat_of_nonneg hi]

theorem decode_required_fields_witness :
    processRaw badPayload clearStore
      = (Except.error PipelineError.malformedEvent, clearStore) ∧
    (processRaw goodPayload clearStore).1 ≠ Except.error PipelineError.malformedEvent := by
  refine ⟨(decode_required_fields badPayload clearStore).1 (Or.inl rfl), ?_⟩
  have hng : ¬ RawMalformed goodPayload := by
    intro hm
    unfold RawMalformed goodPayload at hm
    simp only [Option.some.injEq, reduceCtorEq, false_or] at hm
    rcases hm with ⟨h2, heq, hbad⟩ | ⟨i2, heq, hneg⟩ | ⟨a2, heq, hbad⟩
    · subst heq
      exact absurd hbad (by decide)
    · subst heq
      exact absurd hneg (by decide)
    · subst heq
      exact absurd hbad (by decide)
  obtain ⟨e, he, -⟩ := (decode_required_fields goodPayload clearStore).2 hng
  rw [he]
  simp

/-- C9: the two mapping handlers copy the same four event parameters and
the same block and transaction metadata for every event, but they derive
different entity ids (transaction-hash bytes concatenated with the 32-bit
log index, versus the hex string of the transaction hash, a colon, and the
decimal log index), so the two handlers key the store differently and are
not equivalent as store transformations. -/
theorem handlers_same_fields_different_ids (e : ChainEvent) :
    (newApiCall e).callId = (newEntity e).callId ∧
    (newApiCall e).requestHash = (newEntity e).requestHash ∧
    (newApiCall e).responseHash = (newEntity e).responseHash ∧
    (newApiCall e).emitter = (newEntity e).emitter ∧
    (newApiCall e).txHash = (newEntity e).transactionHash ∧
    (newApiCall e).blockNumber = (newEntity e).blockNumber ∧
    (newApiCall e).timestamp = (newEntity e).blockTimestamp ∧
    bytesToHex (assignId e) ≠ assignIdStr e := by
  refine ⟨rfl, rfl, rfl, rfl, rfl, rfl, rfl, ?_⟩
  intro hEq
  have hdata : (bytesToHex (assignId e)).data = (assignIdStr e).data :=
    congrArg String.data hEq
  have hmem : ':' ∈ (assignIdStr e).data := by
    rw [assignIdStr, string_data_append, string_data_append]
    refine List.mem_append.mpr (Or.inl (List.mem_append.mpr (Or.inr ?_)))
    decide
  rw [← hdata] at hmem
  have hbody : ':' ∈ hexBody (assignId e) := by
    have h0 : (bytesToHex (assignId e)).data = '0' :: 'x' :: hexBody (assignId e) := rfl
    rw [h0] at hmem
    rcases List.mem_cons.mp hmem with h | hmem2
    · exact absurd h (by decide)
    · rcases List.mem_cons.mp hmem2 with h | h3
      · exact absurd h (by decide)
      · exact h3
  exact colon_not_mem_hexBody (assignId e) hbody

theorem handlers_same_fields_different_ids_witness :
    bytesToHex (assignId sampleEvent) ≠ assignIdStr sampleEvent :=
  (handlers_same_fields_different_ids sampleEvent).2.2.2.2.2.2.2
